import Mathlib

/-!
Shallow embedding of the QR-code attendance check-in core of the
Employee-Management-System repository (src/routes.py, src/models.py):
the per-day check-in token registry (`get_or_create_qr_token`, the token
checks at the top of `employee_qr_checkin`) and the attendance state
machine (`submit_qr_checkin`, `employee_checkout`,
`Attendance.calculate_hours_worked`).

Dates are abstracted as days since a fixed epoch (the source stores ISO
`YYYY-MM-DD` strings, whose lexicographic order agrees with chronological
order); tokens are abstracted as opaque values supplied by the caller
(the source draws them from `secrets.token_urlsafe(16)`); timestamps are
a date plus a second-of-day.
-/

namespace EMS

/-- A calendar date, as days since a fixed epoch. -/
abbrev Date := Nat

/-- An opaque check-in token value. -/
abbrev Token := Nat

/-- A wall-clock timestamp (Python `datetime`): a date plus the second of day. -/
structure DateTime where
  day : Date
  tod : Nat
  deriving Repr, DecidableEq

/-- Absolute seconds since the epoch, for comparing and subtracting timestamps. -/
def DateTime.toSeconds (t : DateTime) : Nat := t.day * 86400 + t.tod

/-- The module-level `qr_tokens` dict: a date-to-token mapping. -/
abbrev TokenRegistry := List (Date × Token)

/-- Lookup as `qr_tokens.get(d)`: first binding for the date, if any. -/
def lookupToken : TokenRegistry → Date → Option Token
  | [], _ => none
  | (d, t) :: rest, q => if d = q then some t else lookupToken rest q

/-- The auto-clean loop in `get_or_create_qr_token`: delete every entry whose
date is strictly before `today`. -/
def purgeExpired (s : TokenRegistry) (today : Date) : TokenRegistry :=
  s.filter (fun p => !(decide (p.1 < today)))

/-- Model of `get_or_create_qr_token` (src/routes.py lines 102-118): purge
entries older than `today` (= `date.today()`), then return the stored token
for `date_str`, creating one from `fresh` when absent.  `fresh` stands for
the `secrets.token_urlsafe(16)` draw.  The sole caller passes
`date.today().isoformat()` as `date_str`, i.e. `date_str = today`. -/
def get_or_create_qr_token (s : TokenRegistry) (today date_str : Date)
    (fresh : Token) : TokenRegistry × Token :=
  let s' := purgeExpired s today
  match lookupToken s' date_str with
  | some t => (s', t)
  | none => ((date_str, fresh) :: s', fresh)

/-- The distinguishable token-validation failure causes. -/
inductive TokenError where
  | NoTokenIssued
  | TokenExpired
  | TokenMismatch
  deriving Repr, DecidableEq

/-- The token checks of `employee_qr_checkin` (src/routes.py lines 2518-2527):
look up the stored token for the date; a missing token and a mismatched token
are reported as different conditions.  Never writes the registry. -/
def validate_token (s : TokenRegistry) (d : Date) (tok : Token) :
    Except TokenError Unit :=
  match lookupToken s d with
  | none => .error .NoTokenIssued
  | some stored => if stored = tok then .ok () else .error .TokenMismatch

/-- The full gate of `employee_qr_checkin` (src/routes.py lines 2512-2527):
the date must equal today before the stored token is even consulted. -/
def employee_qr_checkin_validate (s : TokenRegistry) (checkin_date today : Date)
    (tok : Token) : Except TokenError Unit :=
  if checkin_date ≠ today then .error .TokenExpired
  else validate_token s checkin_date tok

/-- An `Attendance` row (src/models.py lines 376-409), restricted to the
fields the check-in/check-out core reads or writes. -/
structure AttendanceRecord where
  employee_id : Nat
  date : Date
  status : String
  check_in_time : Option DateTime
  check_out_time : Option DateTime
  notes : Option String
  deriving Repr, DecidableEq

/-- The attendance table, as the sequence of stored rows. -/
abbrev AttendanceDB := List AttendanceRecord

/-- Lookup as `Attendance.query.filter_by(employee_id=..., date=...).first()`. -/
def findAtt (db : AttendanceDB) (emp : Nat) (d : Date) : Option AttendanceRecord :=
  db.find? (fun r => r.employee_id == emp && r.date == d)

/-- Deletion as `db.session.delete(existing)`: remove the first row for the key. -/
def deleteAtt : AttendanceDB → Nat → Date → AttendanceDB
  | [], _, _ => []
  | r :: rest, emp, d =>
    if r.employee_id = emp ∧ r.date = d then rest
    else r :: deleteAtt rest emp d

/-- In-place mutation of the row found for the key: replace the first row
for `(emp, d)` by `newr`, keeping every other row as it was. -/
def updateAtt : AttendanceDB → Nat → Date → AttendanceRecord → AttendanceDB
  | [], _, _, _ => []
  | r :: rest, emp, d, newr =>
    if r.employee_id = emp ∧ r.date = d then newr :: rest
    else r :: updateAtt rest emp d newr

/-- The late cutoff of 09:20, parsed by strptime in the source,
as the second of day. -/
def late_cutoff_time : Nat := 9 * 3600 + 20 * 60

/-- Status derivation in `submit_qr_checkin` (src/routes.py lines 2619-2629):
Present when the check-in time is strictly before the cutoff, else Late. -/
def checkin_status (now : DateTime) : String :=
  if now.tod < late_cutoff_time then "Present" else "Late"

/-- The `Attendance(...)` row created by `submit_qr_checkin`:
status from the clock, check-in time `now`, empty notes. -/
def new_attendance (emp : Nat) (d : Date) (now : DateTime) : AttendanceRecord :=
  { employee_id := emp, date := d, status := checkin_status now,
    check_in_time := some now, check_out_time := none, notes := some "" }

/-- Check-in failure causes surfaced by `submit_qr_checkin`. -/
inductive CheckinError where
  | TokenExpired
  | AlreadyCheckedIn (existing_check_in : DateTime)
  deriving Repr, DecidableEq

/-- Model of `submit_qr_checkin` (src/routes.py lines 2560-2655), after the
role/field checks: reject a date other than today as expired; reject when a
row for `(emp, date)` already has a check-in time, quoting that time; delete
a stale row that has no check-in time; then create the new row.  Returns the
table after the request together with the outcome. -/
def submit_qr_checkin (db : AttendanceDB) (emp : Nat) (checkin_date_str today : Date)
    (now : DateTime) : AttendanceDB × Except CheckinError AttendanceRecord :=
  if checkin_date_str ≠ today then
    (db, .error .TokenExpired)
  else
    match findAtt db emp checkin_date_str with
    | some existing =>
      match existing.check_in_time with
      | some t => (db, .error (.AlreadyCheckedIn t))
      | none =>
        let db1 := deleteAtt db emp checkin_date_str
        let att := new_attendance emp checkin_date_str now
        (att :: db1, .ok att)
    | none =>
      let att := new_attendance emp checkin_date_str now
      (att :: db, .ok att)

/-- Rounding of `num / den` to the nearest natural with ties to even: the
rule IEEE-754 binary64 arithmetic and the CPython float `round` both use. -/
def rhe (num den : ℕ) : ℕ :=
  if 2 * (num % den) < den then num / den
  else if den < 2 * (num % den) then num / den + 1
  else if (num / den) % 2 = 0 then num / den else num / den + 1

/-- Floor of the binary logarithm, total by structural recursion on fuel. -/
def log2fuel : ℕ → ℕ → ℕ
  | 0, _ => 0
  | fuel + 1, n => if n < 2 then 0 else log2fuel fuel (n / 2) + 1

/-- Floor of the binary logarithm of `n` (correct whenever `1 ≤ n`). -/
def myLog2 (n : ℕ) : ℕ := log2fuel n n

/-- For `1 ≤ n`, the floor of the binary logarithm of `n / 3600`, shifted up
by 12 so that it is a natural number (`n / 3600 ≥ 1 / 3600 > 2 ^ (0 - 12)`). -/
def flrP12 (n : ℕ) : ℕ :=
  if 3600 * 2 ^ myLog2 n ≤ 2048 * n then myLog2 n + 1 else myLog2 n

/-- The exact centihour value of the CPython expression `round(n / 3600, 2)`
for a whole number of seconds `n`: the quotient is first correctly rounded
(ties to even) to a 53-bit IEEE-754 binary64 significand `m` at the binary
exponent determined by `flrP12`, and the resulting double `m · 2 ^ (p - 64)`
is then rounded (ties to even) to 2 decimal places — which CPython performs
as exact decimal arithmetic on the binary value of the double. -/
def pyHoursCentiNat (n : ℕ) : ℕ :=
  if n = 0 then 0
  else if flrP12 n ≤ 64 then
    rhe (rhe (n * 2 ^ (64 - flrP12 n)) 3600 * 100) (2 ^ (64 - flrP12 n))
  else
    rhe n (3600 * 2 ^ (flrP12 n - 64)) * 100 * 2 ^ (flrP12 n - 64)

/-- Sign-symmetric extension to integer second counts: float division and
float rounding are both symmetric under negation. -/
def pyHoursCenti (secs : ℤ) : ℤ :=
  if secs < 0 then -(pyHoursCentiNat secs.natAbs : ℤ)
  else (pyHoursCentiNat secs.natAbs : ℤ)

/-- Model of `Attendance.calculate_hours_worked` (src/models.py lines 411-417):
`round((check_out_time - check_in_time).total_seconds() / 3600, 2)`, or 0
when either timestamp is missing.  The float arithmetic of the source is
modelled exactly by `pyHoursCenti`, and the resulting two-decimal value is
represented exactly in centihours (hundredths of an hour): the stored number
is `100 ×` the hours figure the source returns, so `8.00` hours is `800`. -/
def calculate_hours_worked (r : AttendanceRecord) : ℤ :=
  match r.check_in_time, r.check_out_time with
  | some cin, some cout =>
    pyHoursCenti ((cout.toSeconds : ℤ) - (cin.toSeconds : ℤ))
  | _, _ => 0

/-- Zero-padded two-digit rendering helper. -/
def pad2 (n : Nat) : String := if n < 10 then "0" ++ toString n else toString n

/-- Rendering of `strftime("%I:%M %p")` on the time of day. -/
def strftime12h (t : DateTime) : String :=
  let h := t.tod / 3600 % 24
  let m := t.tod % 3600 / 60
  let h12 := if h % 12 = 0 then 12 else h % 12
  let half := if h < 12 then "AM" else "PM"
  pad2 h12 ++ ":" ++ pad2 m ++ " " ++ half

/-- Python repr of the two-decimal float `c / 100`, as interpolated into the
notes f-string: trailing zeros dropped, at least one decimal kept. -/
def pyFloatRepr (c : ℤ) : String :=
  let sgn := if c < 0 then "-" else ""
  let a := c.natAbs
  let whole := a / 100
  let frac := a % 100
  if frac = 0 then sgn ++ toString whole ++ ".0"
  else if frac % 10 = 0 then sgn ++ toString whole ++ "." ++ toString (frac / 10)
  else sgn ++ toString whole ++ "." ++ pad2 frac

/-- The notes summary written by `employee_checkout` (`hw` in centihours). -/
def checkout_notes (cin now : DateTime) (hw : ℤ) : String :=
  "Checked in: " ++ strftime12h cin ++ " | Checked out: " ++ strftime12h now ++
    " | Hours: " ++ pyFloatRepr hw ++ "h"

/-- Check-out failure causes surfaced by `employee_checkout`. -/
inductive CheckoutError where
  | NoCheckInFound
  | AlreadyCheckedOut (t : DateTime)
  | InternalError
  deriving Repr, DecidableEq

/-- Model of `employee_checkout` (src/routes.py lines 2665-2730), after the role and
profile lookups: no row for `(emp, today)` fails with `NoCheckInFound`; a row
already holding a check-out time fails quoting it; otherwise set
`check_out_time = now`, compute the hours and overwrite `notes` with the
summary.  A row with no `check_in_time` raises `AttributeError` while the
notes f-string calls `check_in_time.strftime`, and the handler rolls the
transaction back, so the table is unchanged (`InternalError`). -/
def employee_checkout (db : AttendanceDB) (emp : Nat) (today : Date)
    (now : DateTime) : AttendanceDB × Except CheckoutError AttendanceRecord :=
  match findAtt db emp today with
  | none => (db, .error .NoCheckInFound)
  | some att =>
    match att.check_out_time with
    | some t => (db, .error (.AlreadyCheckedOut t))
    | none =>
      match att.check_in_time with
      | none => (db, .error .InternalError)
      | some cin =>
        let withOut := { att with check_out_time := some now }
        let hw := calculate_hours_worked withOut
        let updated := { withOut with notes := some (checkout_notes cin now hw) }
        (updateAtt db emp today updated, .ok updated)

/-! Token registry lemmas -/

/-- After the purge, no entry dated strictly before `today` can be found. -/
theorem lookupToken_purgeExpired_of_lt (s : TokenRegistry) (today d : Date)
    (h : d < today) : lookupToken (purgeExpired s today) d = none := by
  induction s with
  | nil => rfl
  | cons p rest ih =>
    unfold purgeExpired at ih ⊢
    by_cases hp : p.1 < today
    · simp [List.filter, hp, ih]
    · have hne : p.1 ≠ d := Nat.ne_of_gt (lt_of_lt_of_le h (Nat.le_of_not_lt hp))
      simp [List.filter, hp, lookupToken, hne, ih]

/-- Purging is idempotent. -/
theorem purgeExpired_purgeExpired (s : TokenRegistry) (today : Date) :
    purgeExpired (purgeExpired s today) today = purgeExpired s today := by
  unfold purgeExpired
  rw [List.filter_filter]
  simp

/-- C3: every call to `get_or_create_qr_token` whose argument is the current
day `d2` (as at its sole call site) removes from the registry each stored
token for a strictly earlier date `d1`: looking `d1` up afterwards finds
nothing. -/
theorem get_or_create_purges_older (s : TokenRegistry) (d1 d2 : Date)
    (fresh : Token) (h : d1 < d2) :
    lookupToken (get_or_create_qr_token s d2 d2 fresh).1 d1 = none := by
  unfold get_or_create_qr_token
  have hpurge := lookupToken_purgeExpired_of_lt s d2 d1 h
  cases hm : lookupToken (purgeExpired s d2) d2 with
  | some t => simpa [hm] using hpurge
  | none =>
    have hne : d2 ≠ d1 := Nat.ne_of_gt h
    simp [hm, lookupToken, hne, hpurge]

/-- Witness for C3 at a concrete registry. -/
theorem get_or_create_purges_older_witness :
    lookupToken (get_or_create_qr_token [(0, 5)] 1 1 7).1 0 = none :=
  get_or_create_purges_older [(0, 5)] 0 1 7 (by decide)

/-- C9: two successive `get_or_create_qr_token` calls for the same current
day return the identical token, whatever fresh random values were on offer. -/
theorem get_or_create_idempotent (s : TokenRegistry) (today : Date)
    (f1 f2 : Token) :
    (get_or_create_qr_token (get_or_create_qr_token s today today f1).1
      today today f2).2 = (get_or_create_qr_token s today today f1).2 := by
  unfold get_or_create_qr_token
  cases hm : lookupToken (purgeExpired s today) today with
  | some t => simp [hm, purgeExpired_purgeExpired s today]
  | none =>
    have hkeep : purgeExpired ((today, f1) :: purgeExpired s today) today =
        (today, f1) :: purgeExpired s today := by
      unfold purgeExpired
      rw [List.filter_cons]
      simp [purgeExpired_purgeExpired s today, purgeExpired]
    simp [hm, hkeep, lookupToken]

/-- C4: token validation succeeds exactly when the registry stores the
presented token for the presented date; a missing stored token surfaces as
`NoTokenIssued`, a differing stored token as the distinct `TokenMismatch`,
and validation never writes the registry (it is a pure reader by
construction). -/
theorem validate_token_iff (s : TokenRegistry) (d : Date) (tok : Token) :
    (validate_token s d tok = .ok () ↔ lookupToken s d = some tok)
    ∧ (lookupToken s d = none →
        validate_token s d tok = .error .NoTokenIssued)
    ∧ (∀ stored, lookupToken s d = some stored → stored ≠ tok →
        validate_token s d tok = .error .TokenMismatch)
    ∧ TokenError.NoTokenIssued ≠ TokenError.TokenMismatch := by
  refine ⟨?_, ?_, ?_, by decide⟩
  · constructor
    · intro h
      unfold validate_token at h
      cases hm : lookupToken s d with
      | none => simp [hm] at h
      | some stored =>
        rw [hm] at h
        by_cases he : stored = tok
        · rw [he]
        · simp [he] at h
    · intro h
      unfold validate_token
      simp [h]
  · intro h
    unfold validate_token
    simp [h]
  · intro stored hm hne
    unfold validate_token
    simp [hm, hne]

/-- Witness for C4: the three outcomes at concrete registries. -/
theorem validate_token_iff_witness :
    validate_token [(3, 7)] 3 7 = .ok ()
    ∧ validate_token [] 3 7 = .error .NoTokenIssued
    ∧ validate_token [(3, 9)] 3 7 = .error .TokenMismatch :=
  ⟨(validate_token_iff [(3, 7)] 3 7).1.mpr (by decide),
   (validate_token_iff [] 3 7).2.1 (by decide),
   (validate_token_iff [(3, 9)] 3 7).2.2.1 9 (by decide) (by decide)⟩

/-- C7: a check-in submission dated other than today is rejected as expired
before the attendance table is read or written — the table comes back
unchanged — and the page-load gate likewise answers `TokenExpired` without
consulting the stored token, even when the registry still holds a token for
that other date. -/
theorem wrong_date_rejected_as_expired (db : AttendanceDB) (s : TokenRegistry)
    (emp : Nat) (d today : Date) (tok : Token) (now : DateTime)
    (h : d ≠ today) :
    submit_qr_checkin db emp d today now = (db, .error .TokenExpired)
    ∧ employee_qr_checkin_validate s d today tok = .error .TokenExpired := by
  constructor
  · unfold submit_qr_checkin
    simp [h]
  · unfold employee_qr_checkin_validate
    simp [h]

/-- Witness for C7: a stale token is still stored for date 3, yet both the
page gate and the submission reject date 3 on day 4. -/
theorem wrong_date_rejected_as_expired_witness :
    submit_qr_checkin [] 1 3 4 ⟨4, 32400⟩ = ([], .error .TokenExpired)
    ∧ employee_qr_checkin_validate [(3, 7)] 3 4 7 = .error .TokenExpired :=
  wrong_date_rejected_as_expired [] [(3, 7)] 1 3 4 7 ⟨4, 32400⟩ (by decide)

/-! Check-in status, duplicate check-in, checkout errors -/

/-- Any record a successful check-in returns is the freshly created one. -/
theorem submit_ok_shape (db : AttendanceDB) (emp : Nat) (d today : Date)
    (now : DateTime) (r : AttendanceRecord)
    (h : (submit_qr_checkin db emp d today now).2 = .ok r) :
    r = new_attendance emp d now := by
  by_cases hd : d = today
  · subst hd
    cases hm : findAtt db emp d with
    | none =>
      simp [submit_qr_checkin, hm] at h
      exact h.symm
    | some existing =>
      cases hc : existing.check_in_time with
      | some t => simp [submit_qr_checkin, hm, hc] at h
      | none =>
        simp [submit_qr_checkin, hm, hc] at h
        exact h.symm
  · simp [submit_qr_checkin, hd] at h

/-- C1: a check-in processed on the current day yields status `Present` when
the clock reads strictly before the 09:20 cutoff and `Late` at or after it,
and never yields `Absent`. -/
theorem checkin_status_correct (db : AttendanceDB) (emp : Nat) (today : Date)
    (now : DateTime) (r : AttendanceRecord)
    (h : (submit_qr_checkin db emp today today now).2 = .ok r) :
    (now.tod < late_cutoff_time → r.status = "Present")
    ∧ (late_cutoff_time ≤ now.tod → r.status = "Late")
    ∧ r.status ≠ "Absent" := by
  have hr := submit_ok_shape db emp today today now r h
  subst hr
  refine ⟨?_, ?_, ?_⟩
  · intro h1
    simp [new_attendance, checkin_status, h1]
  · intro h2
    have hn : ¬ now.tod < late_cutoff_time := Nat.not_lt.mpr h2
    simp [new_attendance, checkin_status, hn]
  · unfold new_attendance checkin_status
    by_cases hlt : now.tod < late_cutoff_time
    · simp only [hlt, if_true]
      decide
    · simp only [hlt, if_false]
      decide

/-- Witness for C1: a 09:00 check-in is `Present`. -/
theorem checkin_status_correct_witness :
    (32400 < late_cutoff_time)
    ∧ (new_attendance 1 0 ⟨0, 32400⟩).status = "Present" :=
  ⟨by decide,
   (checkin_status_correct [] 1 0 ⟨0, 32400⟩ (new_attendance 1 0 ⟨0, 32400⟩)
      rfl).1 (by decide)⟩

/-- C2: when a record for `(emp, today)` already carries a check-in time, a
second check-in fails with `AlreadyCheckedIn` quoting that very time, and the
table — in particular the original record — is returned unchanged. -/
theorem checkin_already_checked_in (db : AttendanceDB) (emp : Nat)
    (today : Date) (now : DateTime) (r : AttendanceRecord) (t : DateTime)
    (hfind : findAtt db emp today = some r) (hin : r.check_in_time = some t) :
    submit_qr_checkin db emp today today now = (db, .error (.AlreadyCheckedIn t)) := by
  unfold submit_qr_checkin
  simp [hfind, hin]

/-- Witness for C2: re-checking in at 09:26 after a 09:15 check-in. -/
theorem checkin_already_checked_in_witness :
    submit_qr_checkin [new_attendance 1 0 ⟨0, 33300⟩] 1 0 0 ⟨0, 33960⟩ =
      ([new_attendance 1 0 ⟨0, 33300⟩], .error (.AlreadyCheckedIn ⟨0, 33300⟩)) :=
  checkin_already_checked_in [new_attendance 1 0 ⟨0, 33300⟩] 1 0 ⟨0, 33960⟩
    (new_attendance 1 0 ⟨0, 33300⟩) ⟨0, 33300⟩ rfl rfl

/-- C6: a checkout with no attendance record for `(emp, today)` fails with
`NoCheckInFound` and returns the table unchanged — no record is created. -/
theorem checkout_no_checkin_found (db : AttendanceDB) (emp : Nat)
    (today : Date) (now : DateTime) (h : findAtt db emp today = none) :
    employee_checkout db emp today now = (db, .error .NoCheckInFound) := by
  unfold employee_checkout
  simp [h]

/-- Witness for C6: checkout against an empty table. -/
theorem checkout_no_checkin_found_witness :
    employee_checkout [] 1 0 ⟨0, 62100⟩ = ([], .error .NoCheckInFound) :=
  checkout_no_checkin_found [] 1 0 ⟨0, 62100⟩ rfl

/-! Hours worked -/

/-- Rounding a quotient of an integer by a positive natural, to the nearest
integer (half up), agrees with the integer floor-division formula. -/
theorem round_intCast_div_natCast (a : ℤ) (b : ℕ) (hb : 0 < b) :
    round ((a : ℚ) / (b : ℚ)) = (2 * a + b) / (2 * (b : ℤ)) := by
  rw [round_eq]
  have h1 : ((a : ℚ) / (b : ℚ) + 1 / 2) = ((2 * a + b : ℤ) : ℚ) / ((2 * b : ℕ) : ℚ) := by
    have hb0 : ((b : ℚ)) ≠ 0 := by positivity
    push_cast
    field_simp
    ring
  rw [h1, Rat.floor_intCast_div_natCast]
  push_cast
  ring_nf

/-- Modelled from the spec sentence: `(check_out_time − check_in_time)`
expressed in hours, rounded to 2 decimal places. -/
def hours_worked_spec (cin cout : DateTime) : ℚ :=
  ((round ((((cout.toSeconds : ℚ) - (cin.toSeconds : ℚ)) / 3600) * 100) : ℤ) : ℚ) / 100

/-- Half-even rounding lands within half a unit of the true quotient. -/
theorem rhe_bounds (num den : ℕ) (hden : 0 < den) :
    2 * den * rhe num den ≤ 2 * num + den ∧ 2 * num ≤ 2 * den * rhe num den + den := by
  have hd : den * (num / den) + num % den = num := Nat.div_add_mod num den
  have hr : num % den < den := Nat.mod_lt num hden
  unfold rhe
  set q := num / den with hq
  set rr := num % den with hrr
  split_ifs with h1 h2 h3 <;> constructor <;> nlinarith [hd, hr]

/-- An integer strictly within half a unit of the quotient is its rounding. -/
theorem rhe_eq_of_lt (num den k : ℕ) (hden : 0 < den)
    (hlo : 2 * num < (2 * k + 1) * den) (hhi : 2 * k * den < 2 * num + den) :
    rhe num den = k := by
  obtain ⟨hb1, hb2⟩ := rhe_bounds num den hden
  have h1 : 2 * den * rhe num den < 2 * den * (k + 1) := by nlinarith
  have h2 : 2 * den * k < 2 * den * (rhe num den + 1) := by nlinarith
  have h3 : rhe num den < k + 1 := Nat.lt_of_mul_lt_mul_left h1
  have h4 : k < rhe num den + 1 := Nat.lt_of_mul_lt_mul_left h2
  omega

/-- The fuel-based binary logarithm is correct when the fuel suffices. -/
theorem log2fuel_spec (fuel : ℕ) : ∀ n : ℕ, 1 ≤ n → n ≤ fuel →
    2 ^ log2fuel fuel n ≤ n ∧ n < 2 ^ (log2fuel fuel n + 1) := by
  induction fuel with
  | zero => intro n h1 h2; exact absurd (h1.trans h2) (by decide)
  | succ fuel ih =>
    intro n h1 h2
    unfold log2fuel
    split_ifs with hn
    · constructor
      · simpa using h1
      · simpa using hn
    · push_neg at hn
      have h1a : 1 ≤ n / 2 := by omega
      have h2a : n / 2 ≤ fuel := by omega
      obtain ⟨ha, hb⟩ := ih (n / 2) h1a h2a
      constructor
      · rw [pow_succ]
        generalize hB : (2 : ℕ) ^ log2fuel fuel (n / 2) = B at ha ⊢
        omega
      · rw [pow_succ]
        generalize hC : (2 : ℕ) ^ (log2fuel fuel (n / 2) + 1) = C at hb ⊢
        omega

/-- Correctness of the binary logarithm. -/
theorem myLog2_spec (n : ℕ) (hn : 1 ≤ n) :
    2 ^ myLog2 n ≤ n ∧ n < 2 ^ (myLog2 n + 1) :=
  log2fuel_spec n n hn (le_refl n)

/-- The shifted exponent brackets `n / 3600` between consecutive powers of 2
(stated multiplied through by `3600 · 2 ^ 12`). -/
theorem flrP12_spec (n : ℕ) (hn : 1 ≤ n) :
    3600 * 2 ^ flrP12 n ≤ 4096 * n ∧ 4096 * n < 3600 * 2 ^ (flrP12 n + 1) := by
  obtain ⟨hb1, hb2⟩ := myLog2_spec n hn
  have hb2a : n < 2 ^ myLog2 n * 2 := by rw [← pow_succ]; exact hb2
  unfold flrP12
  split_ifs with htest
  · constructor
    · rw [pow_succ]
      generalize hB : (2 : ℕ) ^ myLog2 n = B at htest ⊢
      omega
    · rw [pow_succ, pow_succ]
      generalize hB : (2 : ℕ) ^ myLog2 n = B at hb2a ⊢
      omega
  · push_neg at htest
    constructor
    · generalize hB : (2 : ℕ) ^ myLog2 n = B at hb1 ⊢
      omega
    · rw [pow_succ]
      generalize hB : (2 : ℕ) ^ myLog2 n = B at htest ⊢
      omega

/-- Away from exact half-centihour ties and for durations below `2 ^ 40`
seconds, the float computation agrees with exact rounding of `n / 36` to the
nearest integer: the float errors are too small to cross a rounding
boundary. -/
theorem pyHoursCentiNat_eq (n : ℕ) (hb : n < 2 ^ 40) (ht : n % 36 ≠ 18) :
    pyHoursCentiNat n = (2 * n + 36) / 72 := by
  by_cases hn0 : n = 0
  · subst hn0; rfl
  have hn1 : 1 ≤ n := Nat.one_le_iff_ne_zero.mpr hn0
  obtain ⟨hp1, hp2⟩ := flrP12_spec n hn1
  have hple : flrP12 n ≤ 40 := by
    by_contra hgt
    push_neg at hgt
    have hpow : (2 : ℕ) ^ 41 ≤ 2 ^ flrP12 n := Nat.pow_le_pow_right (by norm_num) hgt
    have he41 : (2 : ℕ) ^ 41 = 2 * 2 ^ 40 := by rw [pow_succ]; ring
    rw [he41] at hpow
    generalize hC : (2 : ℕ) ^ 40 = C at hb hpow
    generalize hP : (2 : ℕ) ^ flrP12 n = P at hpow hp1
    omega
  have hp64 : flrP12 n ≤ 64 := le_trans hple (by norm_num)
  have hf24 : 24 ≤ 64 - flrP12 n := by omega
  have hFbig : 16777216 ≤ 2 ^ (64 - flrP12 n) := by
    calc (16777216 : ℕ) = 2 ^ 24 := by norm_num
    _ ≤ 2 ^ (64 - flrP12 n) := Nat.pow_le_pow_right (by norm_num) hf24
  obtain ⟨hm1, hm2⟩ := rhe_bounds (n * 2 ^ (64 - flrP12 n)) 3600 (by norm_num)
  have hk1 : 72 * ((2 * n + 36) / 72) ≤ 2 * n + 34 := by omega
  have hk2 : 2 * n ≤ 72 * ((2 * n + 36) / 72) + 34 := by omega
  have hmul2 : (2 * n) * 2 ^ (64 - flrP12 n)
      ≤ (72 * ((2 * n + 36) / 72) + 34) * 2 ^ (64 - flrP12 n) :=
    Nat.mul_le_mul_right _ hk2
  have hmul1 : (72 * ((2 * n + 36) / 72)) * 2 ^ (64 - flrP12 n)
      ≤ (2 * n + 34) * 2 ^ (64 - flrP12 n) :=
    Nat.mul_le_mul_right _ hk1
  have hfinal : rhe (rhe (n * 2 ^ (64 - flrP12 n)) 3600 * 100) (2 ^ (64 - flrP12 n))
      = (2 * n + 36) / 72 := by
    apply rhe_eq_of_lt _ _ _ (lt_of_lt_of_le (by norm_num) hFbig)
    · have key : 36 * (2 * (rhe (n * 2 ^ (64 - flrP12 n)) 3600 * 100))
          < 36 * ((2 * ((2 * n + 36) / 72) + 1) * 2 ^ (64 - flrP12 n)) := by
        nlinarith [hm1, hmul2, hFbig]
      exact Nat.lt_of_mul_lt_mul_left key
    · have key : 36 * (2 * ((2 * n + 36) / 72) * 2 ^ (64 - flrP12 n))
          < 36 * (2 * (rhe (n * 2 ^ (64 - flrP12 n)) 3600 * 100) + 2 ^ (64 - flrP12 n)) := by
        nlinarith [hm2, hmul1, hFbig]
      exact Nat.lt_of_mul_lt_mul_left key
  unfold pyHoursCentiNat
  rw [if_neg hn0, if_pos hp64]
  exact hfinal

/-- C5, counterexample: the claim as stated fails on the code.  A 54-second
interval is exactly 0.015 hours, whose 2-decimal rounding is 0.02; but the
binary64 double for `54 / 3600` lies just below 0.015, so the source rounds
it down and returns 0.01. -/
theorem calculate_hours_worked_counterexample :
    ¬ (∀ (r : AttendanceRecord) (cin cout : DateTime),
        r.check_in_time = some cin → r.check_out_time = some cout →
        cin.toSeconds ≤ cout.toSeconds →
        ((calculate_hours_worked r : ℤ) : ℚ) / 100 = hours_worked_spec cin cout) := by
  intro hall
  have h := hall ⟨1, 0, "Present", some ⟨0, 0⟩, some ⟨0, 54⟩, some ""⟩
    ⟨0, 0⟩ ⟨0, 54⟩ rfl rfl (by decide)
  have hc : calculate_hours_worked ⟨1, 0, "Present", some ⟨0, 0⟩, some ⟨0, 54⟩, some ""⟩ = 1 := by
    decide
  rw [hc] at h
  have hs : hours_worked_spec ⟨0, 0⟩ ⟨0, 54⟩ = 2 / 100 := by
    unfold hours_worked_spec
    have harg : ((((DateTime.mk 0 54).toSeconds : ℚ) - ((DateTime.mk 0 0).toSeconds : ℚ)) / 3600) * 100
        = (((54 : ℤ) : ℚ) / ((36 : ℕ) : ℚ)) := by
      norm_num [DateTime.toSeconds]
    rw [harg, round_intCast_div_natCast 54 36 (by norm_num)]
    norm_num
  rw [hs] at h
  norm_num at h

/-- C5, as amended: for a record carrying both timestamps with checkout not
before check-in, a duration below `2 ^ 40` seconds, and a duration that is
not an exact half-centihour (seconds ≢ 18 mod 36), the hours figure computed
on checkout (stored here in centihours) is exactly the elapsed time in hours
rounded to 2 decimal places.  At exact half-centihour ties the float
arithmetic of the source may round to the other side (54 s gives 0.01, not
0.02). -/
theorem calculate_hours_worked_correct (r : AttendanceRecord)
    (cin cout : DateTime) (h1 : r.check_in_time = some cin)
    (h2 : r.check_out_time = some cout)
    (hle : cin.toSeconds ≤ cout.toSeconds)
    (hbound : cout.toSeconds - cin.toSeconds < 2 ^ 40)
    (htie : (cout.toSeconds - cin.toSeconds) % 36 ≠ 18) :
    ((calculate_hours_worked r : ℤ) : ℚ) / 100 = hours_worked_spec cin cout := by
  unfold calculate_hours_worked hours_worked_spec
  simp only [h1, h2]
  have hz : (cout.toSeconds : ℤ) - (cin.toSeconds : ℤ)
      = ((cout.toSeconds - cin.toSeconds : ℕ) : ℤ) := (Int.ofNat_sub hle).symm
  rw [hz]
  have hpos : pyHoursCenti ((cout.toSeconds - cin.toSeconds : ℕ) : ℤ)
      = (pyHoursCentiNat (cout.toSeconds - cin.toSeconds) : ℤ) := by
    unfold pyHoursCenti
    rw [if_neg (by simp), Int.natAbs_ofNat]
  rw [hpos, pyHoursCentiNat_eq _ hbound htie]
  have hq : (cout.toSeconds : ℚ) - (cin.toSeconds : ℚ)
      = ((cout.toSeconds - cin.toSeconds : ℕ) : ℚ) := by
    rw [Nat.cast_sub hle]
  rw [hq]
  have harg : ((((cout.toSeconds - cin.toSeconds : ℕ) : ℚ)) / 3600) * 100
      = ((((cout.toSeconds - cin.toSeconds : ℕ) : ℤ)) : ℚ) / ((36 : ℕ) : ℚ) := by
    push_cast
    ring
  rw [harg, round_intCast_div_natCast _ 36 (by norm_num)]
  have hdiv : (((2 * (cout.toSeconds - cin.toSeconds) + 36) / 72 : ℕ) : ℤ)
      = (2 * ((cout.toSeconds - cin.toSeconds : ℕ) : ℤ) + ((36 : ℕ) : ℤ)) / (2 * ((36 : ℕ) : ℤ)) := by
    omega
  rw [hdiv]

/-- Witness for C5: check-in 09:15, check-out 17:15 the same day is 28800
seconds (no tie, below the bound) and gives 8.00 hours (800 centihours). -/
theorem calculate_hours_worked_correct_witness :
    ((calculate_hours_worked ⟨1, 0, "Present", some ⟨0, 33300⟩, some ⟨0, 62100⟩, some ""⟩ : ℤ) : ℚ) / 100
      = hours_worked_spec ⟨0, 33300⟩ ⟨0, 62100⟩
    ∧ calculate_hours_worked ⟨1, 0, "Present", some ⟨0, 33300⟩, some ⟨0, 62100⟩, some ""⟩ = 800 :=
  ⟨calculate_hours_worked_correct ⟨1, 0, "Present", some ⟨0, 33300⟩, some ⟨0, 62100⟩, some ""⟩
      ⟨0, 33300⟩ ⟨0, 62100⟩ rfl rfl (by decide) (by decide) (by decide),
   by decide⟩

/-! Table invariant and frame conditions -/

/-- Two rows collide on the `unique_employee_date` key. -/
def sameKey (a b : AttendanceRecord) : Prop :=
  a.employee_id = b.employee_id ∧ a.date = b.date

/-- The unique constraint on (employee_id, date) of src/models.py lines
387-390: no two rows share the key. -/
def atMostOnePerKey (db : AttendanceDB) : Prop :=
  List.Pairwise (fun a b => ¬ sameKey a b) db

/-- A row with a check-out time also has a check-in time, not after it. -/
def recordWF (r : AttendanceRecord) : Prop :=
  ∀ cout, r.check_out_time = some cout →
    ∃ cin, r.check_in_time = some cin ∧ cin.toSeconds ≤ cout.toSeconds

/-- The attendance-table invariant of the spec. -/
def dbInvariant (db : AttendanceDB) : Prop :=
  atMostOnePerKey db ∧ ∀ r ∈ db, recordWF r

/-- A failed `find_by` means no row matches the key. -/
theorem findAtt_eq_none (db : AttendanceDB) (emp : Nat) (d : Date)
    (h : findAtt db emp d = none) :
    ∀ r ∈ db, ¬ (r.employee_id = emp ∧ r.date = d) := by
  intro r hr
  have := List.find?_eq_none.mp h r hr
  simpa using this

/-- A successful `find_by` returns a member row carrying the key. -/
theorem findAtt_eq_some (db : AttendanceDB) (emp : Nat) (d : Date)
    (r : AttendanceRecord) (h : findAtt db emp d = some r) :
    r ∈ db ∧ r.employee_id = emp ∧ r.date = d := by
  refine ⟨List.mem_of_find?_eq_some h, ?_⟩
  have := List.find?_some h
  simpa using this

/-- Deleting a row yields a sublist of the table. -/
theorem deleteAtt_sublist (db : AttendanceDB) (emp : Nat) (d : Date) :
    List.Sublist (deleteAtt db emp d) db := by
  induction db with
  | nil => simp [deleteAtt]
  | cons x rest ih =>
    unfold deleteAtt
    by_cases hx : x.employee_id = emp ∧ x.date = d
    · simp only [hx, if_true]
      exact List.sublist_cons_self x rest
    · simp only [hx, if_false]
      exact List.Sublist.cons₂ x ih

/-- With unique keys, after deleting the first row for a key no row for that
key remains. -/
theorem deleteAtt_no_key (db : AttendanceDB) (emp : Nat) (d : Date)
    (hpw : atMostOnePerKey db) :
    ∀ r ∈ deleteAtt db emp d, ¬ (r.employee_id = emp ∧ r.date = d) := by
  induction db with
  | nil => intro r hr; simp [deleteAtt] at hr
  | cons x rest ih =>
    have hx := (List.pairwise_cons.mp hpw).1
    have hrest := (List.pairwise_cons.mp hpw).2
    intro r hr
    unfold deleteAtt at hr
    by_cases hxk : x.employee_id = emp ∧ x.date = d
    · simp only [hxk, if_true] at hr
      intro hrk
      exact hx r hr ⟨hxk.1.trans hrk.1.symm, hxk.2.trans hrk.2.symm⟩
    · simp only [hxk, if_false] at hr
      rcases List.mem_cons.mp hr with hr | hr
      · rw [hr]; exact hxk
      · exact ih hrest r hr

/-- Members of an updated table are the new row or old rows. -/
theorem mem_updateAtt (db : AttendanceDB) (emp : Nat) (d : Date)
    (newr r : AttendanceRecord) (h : r ∈ updateAtt db emp d newr) :
    r = newr ∨ r ∈ db := by
  induction db with
  | nil => simp [updateAtt] at h
  | cons x rest ih =>
    unfold updateAtt at h
    by_cases hx : x.employee_id = emp ∧ x.date = d
    · simp only [hx, if_true] at h
      rcases List.mem_cons.mp h with h | h
      · exact Or.inl h
      · exact Or.inr (List.mem_cons_of_mem x h)
    · simp only [hx, if_false] at h
      rcases List.mem_cons.mp h with h | h
      · exact Or.inr (by rw [h]; exact List.mem_cons_self x rest)
      · rcases ih h with h | h
        · exact Or.inl h
        · exact Or.inr (List.mem_cons_of_mem x h)

/-- Replacing the row for a key by a row with the same key keeps keys unique. -/
theorem updateAtt_pairwise (db : AttendanceDB) (emp : Nat) (d : Date)
    (newr : AttendanceRecord) (hpw : atMostOnePerKey db)
    (hk : newr.employee_id = emp ∧ newr.date = d) :
    atMostOnePerKey (updateAtt db emp d newr) := by
  induction db with
  | nil => exact hpw
  | cons x rest ih =>
    have hx := (List.pairwise_cons.mp hpw).1
    have hrest := (List.pairwise_cons.mp hpw).2
    unfold updateAtt
    by_cases hxk : x.employee_id = emp ∧ x.date = d
    · simp only [hxk, if_true]
      refine List.pairwise_cons.mpr ⟨?_, hrest⟩
      intro b hb hkey
      exact hx b hb ⟨hxk.1.trans (hk.1.symm.trans hkey.1), hxk.2.trans (hk.2.symm.trans hkey.2)⟩
    · simp only [hxk, if_false]
      refine List.pairwise_cons.mpr ⟨?_, ih hrest⟩
      intro b hb
      rcases mem_updateAtt rest emp d newr b hb with hbn | hbm
      · rw [hbn]
        intro hkey
        exact hxk ⟨hkey.1.trans hk.1, hkey.2.trans hk.2⟩
      · exact hx b hbm

/-- Rows not carrying the key survive an update untouched. -/
theorem updateAtt_keeps_others (db : AttendanceDB) (emp : Nat) (d : Date)
    (newr r : AttendanceRecord) (hr : r ∈ db)
    (hk : ¬ (r.employee_id = emp ∧ r.date = d)) :
    r ∈ updateAtt db emp d newr := by
  induction db with
  | nil => simp at hr
  | cons x rest ih =>
    unfold updateAtt
    by_cases hx : x.employee_id = emp ∧ x.date = d
    · simp only [hx, if_true]
      rcases List.mem_cons.mp hr with hrx | hrm
      · exact absurd (hrx ▸ hx) hk
      · exact List.mem_cons_of_mem newr hrm
    · simp only [hx, if_false]
      rcases List.mem_cons.mp hr with hrx | hrm
      · rw [hrx]; exact List.mem_cons_self x _
      · exact List.mem_cons_of_mem x (ih hrm)

/-- C8: a check-in request and a check-out request each preserve the table
invariant — keys stay unique, and a row with a check-out time has a check-in
time not after it — provided the clock has not run backwards (every stored
check-in time is at most `now`). -/
theorem operations_preserve_invariant (db : AttendanceDB) (emp : Nat)
    (d today : Date) (now : DateTime) (hinv : dbInvariant db)
    (hmono : ∀ r ∈ db, ∀ cin, r.check_in_time = some cin →
      cin.toSeconds ≤ now.toSeconds) :
    dbInvariant (submit_qr_checkin db emp d today now).1
    ∧ dbInvariant (employee_checkout db emp today now).1 := by
  constructor
  · by_cases hd : d = today
    · subst hd
      cases hm : findAtt db emp d with
      | some existing =>
        cases hc : existing.check_in_time with
        | some t => simpa [submit_qr_checkin, hm, hc] using hinv
        | none =>
          simp only [submit_qr_checkin, hm, hc, ne_eq, not_true_eq_false, if_false]
          refine ⟨List.pairwise_cons.mpr ⟨?_, ?_⟩, ?_⟩
          · intro b hb hkey
            exact deleteAtt_no_key db emp d hinv.1 b hb
              ⟨hkey.1.symm.trans rfl, hkey.2.symm.trans rfl⟩
          · exact List.Pairwise.sublist (deleteAtt_sublist db emp d) hinv.1
          · intro r hr
            rcases List.mem_cons.mp hr with hrn | hrm
            · rw [hrn]
              intro cout hc2
              simp [new_attendance] at hc2
            · exact hinv.2 r ((deleteAtt_sublist db emp d).mem hrm)
      | none =>
        simp only [submit_qr_checkin, hm, ne_eq, not_true_eq_false, if_false]
        refine ⟨List.pairwise_cons.mpr ⟨?_, hinv.1⟩, ?_⟩
        · intro b hb hkey
          exact findAtt_eq_none db emp d hm b hb
            ⟨hkey.1.symm.trans rfl, hkey.2.symm.trans rfl⟩
        · intro r hr
          rcases List.mem_cons.mp hr with hrn | hrm
          · rw [hrn]
            intro cout hc2
            simp [new_attendance] at hc2
          · exact hinv.2 r hrm
    · simpa [submit_qr_checkin, hd] using hinv
  · cases hm : findAtt db emp today with
    | none => simpa [employee_checkout, hm] using hinv
    | some att =>
      cases ho : att.check_out_time with
      | some t => simpa [employee_checkout, hm, ho] using hinv
      | none =>
        cases hci : att.check_in_time with
        | none => simpa [employee_checkout, hm, ho, hci] using hinv
        | some cin =>
          simp only [employee_checkout, hm, ho, hci]
          have hkey := findAtt_eq_some db emp today att hm
          refine ⟨updateAtt_pairwise db emp today _ hinv.1 ⟨hkey.2.1, hkey.2.2⟩, ?_⟩
          intro r hr
          rcases mem_updateAtt db emp today _ r hr with hrn | hrm
          · rw [hrn]
            intro cout hc2
            simp only [Option.some.injEq] at hc2
            refine ⟨cin, by simp [hci], ?_⟩
            rw [← hc2]
            exact hmono att hkey.1 cin hci
          · exact hinv.2 r hrm

/-- Witness for C8 on a one-row table: check in at 09:15, check out at 17:15. -/
theorem operations_preserve_invariant_witness :
    dbInvariant (submit_qr_checkin [new_attendance 1 0 ⟨0, 33300⟩] 1 0 0 ⟨0, 62100⟩).1
    ∧ dbInvariant (employee_checkout [new_attendance 1 0 ⟨0, 33300⟩] 1 0 ⟨0, 62100⟩).1 :=
  operations_preserve_invariant [new_attendance 1 0 ⟨0, 33300⟩] 1 0 0 ⟨0, 62100⟩
    ⟨List.pairwise_singleton _ _, by
      intro r hr cout hc
      simp only [List.mem_singleton] at hr
      rw [hr] at hc
      simp [new_attendance] at hc⟩
    (by
      intro r hr cin hc
      simp only [List.mem_singleton] at hr
      rw [hr] at hc
      simp only [new_attendance, Option.some.injEq] at hc
      rw [← hc]
      decide)

/-- C10: a successful check-out changes exactly the `check_out_time` (set to
`now`) and `notes` (overwritten with the summary) of the row found for the
key; `employee_id`, `date`, `status` and `check_in_time` are unchanged, and
every other row survives untouched. -/
theorem checkout_frame (db : AttendanceDB) (emp : Nat) (today : Date)
    (now : DateTime) (r' : AttendanceRecord)
    (h : (employee_checkout db emp today now).2 = .ok r') :
    ∃ r cin, findAtt db emp today = some r ∧ r.check_in_time = some cin
      ∧ r'.employee_id = r.employee_id ∧ r'.date = r.date
      ∧ r'.status = r.status ∧ r'.check_in_time = r.check_in_time
      ∧ r'.check_out_time = some now
      ∧ r'.notes = some (checkout_notes cin now
          (calculate_hours_worked { r with check_out_time := some now }))
      ∧ (employee_checkout db emp today now).1 = updateAtt db emp today r'
      ∧ ∀ x ∈ db, ¬ (x.employee_id = emp ∧ x.date = today) →
          x ∈ (employee_checkout db emp today now).1 := by
  cases hm : findAtt db emp today with
  | none => simp [employee_checkout, hm] at h
  | some att =>
    cases ho : att.check_out_time with
    | some t => simp [employee_checkout, hm, ho] at h
    | none =>
      cases hci : att.check_in_time with
      | none => simp [employee_checkout, hm, ho, hci] at h
      | some cin =>
        simp only [employee_checkout, hm, ho, hci, Except.ok.injEq] at h
        refine ⟨att, cin, rfl, hci, ?_⟩
        rw [← h]
        refine ⟨rfl, rfl, rfl, hci.symm, rfl, by rw [hci], ?_, ?_⟩
        · simp only [employee_checkout, hm, ho, hci]
        · intro x hx hxk
          simp only [employee_checkout, hm, ho, hci]
          exact updateAtt_keeps_others db emp today _ x hx hxk

/-- Witness for C10: checking out the concrete 09:15 check-in at 17:15. -/
theorem checkout_frame_witness :
    ∃ r cin,
      findAtt [new_attendance 1 0 ⟨0, 33300⟩] 1 0 = some r
      ∧ r.check_in_time = some cin
      ∧ (AttendanceRecord.mk 1 0 "Present" (some ⟨0, 33300⟩) (some ⟨0, 62100⟩)
          (some "Checked in: 09:15 AM | Checked out: 05:15 PM | Hours: 8.0h")).employee_id
          = r.employee_id
      ∧ (AttendanceRecord.mk 1 0 "Present" (some ⟨0, 33300⟩) (some ⟨0, 62100⟩)
          (some "Checked in: 09:15 AM | Checked out: 05:15 PM | Hours: 8.0h")).date = r.date
      ∧ (AttendanceRecord.mk 1 0 "Present" (some ⟨0, 33300⟩) (some ⟨0, 62100⟩)
          (some "Checked in: 09:15 AM | Checked out: 05:15 PM | Hours: 8.0h")).status = r.status
      ∧ (AttendanceRecord.mk 1 0 "Present" (some ⟨0, 33300⟩) (some ⟨0, 62100⟩)
          (some "Checked in: 09:15 AM | Checked out: 05:15 PM | Hours: 8.0h")).check_in_time
          = r.check_in_time
      ∧ (AttendanceRecord.mk 1 0 "Present" (some ⟨0, 33300⟩) (some ⟨0, 62100⟩)
          (some "Checked in: 09:15 AM | Checked out: 05:15 PM | Hours: 8.0h")).check_out_time
          = some ⟨0, 62100⟩
      ∧ (AttendanceRecord.mk 1 0 "Present" (some ⟨0, 33300⟩) (some ⟨0, 62100⟩)
          (some "Checked in: 09:15 AM | Checked out: 05:15 PM | Hours: 8.0h")).notes
          = some (checkout_notes cin ⟨0, 62100⟩
              (calculate_hours_worked { r with check_out_time := some ⟨0, 62100⟩ }))
      ∧ (employee_checkout [new_attendance 1 0 ⟨0, 33300⟩] 1 0 ⟨0, 62100⟩).1
          = updateAtt [new_attendance 1 0 ⟨0, 33300⟩] 1 0
              (AttendanceRecord.mk 1 0 "Present" (some ⟨0, 33300⟩) (some ⟨0, 62100⟩)
                (some "Checked in: 09:15 AM | Checked out: 05:15 PM | Hours: 8.0h"))
      ∧ ∀ x ∈ [new_attendance 1 0 ⟨0, 33300⟩], ¬ (x.employee_id = 1 ∧ x.date = 0) →
          x ∈ (employee_checkout [new_attendance 1 0 ⟨0, 33300⟩] 1 0 ⟨0, 62100⟩).1 :=
  checkout_frame [new_attendance 1 0 ⟨0, 33300⟩] 1 0 ⟨0, 62100⟩
    (AttendanceRecord.mk 1 0 "Present" (some ⟨0, 33300⟩) (some ⟨0, 62100⟩)
      (some "Checked in: 09:15 AM | Checked out: 05:15 PM | Hours: 8.0h")) rfl

end EMS
